import Mathlib

/-!
Verification of the time-budgeted event drainer example
(`src/ecs/systems-queries_code/examples/concurrency.rs`).

The example registers two systems on a single-threaded cooperative
scheduler: a producer (`send_events`) that appends 0–4 timestamped
messages per tick to an event queue, and a drainer (`do_work`) that
consumes unread messages through a per-consumer cursor, sleeping a fixed
per-item delay for each message and breaking out of its loop as soon as
the elapsed time since the start of the pass reaches a configured budget.

Shallow embedding choices:
* The event queue (bevy `Events<ImportantMessage>` plus
  `Local<EventReader<_>>`) is modelled from the spec's data model:
  an append-only list of messages plus an index cursor that advances by
  one for every message yielded by iteration (bevy's own implementation
  is an external dependency and is not part of this repository's source).
* Time is modelled in nanoseconds as `Nat`.  The only time-consuming
  operation inside a drain pass is the per-item `sleep`, so the elapsed
  time accumulated by the loop is `itemCost` per processed message,
  measured from `system_start` (elapsed starts at `0` when the pass is
  invoked).
* Rust's `^` operator is bitwise XOR and binds more loosely than `*`,
  so the source's `Duration::new(0, 3 * 10 ^ 8)` and
  `Duration::new(0, 10 ^ 8)` are embedded with `Nat.xor`, exactly as the
  Rust compiler evaluates them.
* `message_number` is a `u32`; its increment is taken modulo `2 ^ 32`.
* `time_stamp` is an `f64` in the source but no arithmetic is ever
  performed on it (it is stored and printed), so it is embedded as an
  opaque `Nat`-valued tag.
-/

/-- Number of nanoseconds in one second (`Duration::new(secs, nanos)`
holds `secs * 10 ^ 9 + nanos` nanoseconds). -/
def NANOS_PER_SEC : Nat := 1000000000

/-- Total nanoseconds of a Rust `Duration::new(secs, nanos)`. -/
def durationNanos (secs nanos : Nat) : Nat := secs * NANOS_PER_SEC + nanos

/-- The nanosecond value of the `TimeBudget` resource registered in
`main`: `Duration::new(0, 3 * 10 ^ 8)`.  In Rust `*` binds tighter than
the bitwise-XOR operator `^`, so the nanos field is `(3 * 10) xor 8`. -/
def time_budget_nanos : Nat := durationNanos 0 (Nat.xor (3 * 10) 8)

/-- The nanosecond value of the per-item delay in `do_work`:
`sleep(Duration::new(0, 10 ^ 8))`, whose nanos field is `10 xor 8`. -/
def sleep_nanos : Nat := durationNanos 0 (Nat.xor 10 8)

/-- The `u32` modulus. -/
def W32 : Nat := 4294967296

/-- The event payload sent by the producer.  `message_number` is a `u32`
sequence number; `time_stamp` records `time.seconds_since_startup()` at
production (an `f64` in the source, never computed with, held here as an
opaque tag). -/
structure ImportantMessage where
  message_number : Nat
  time_stamp : Nat
deriving DecidableEq, Repr

/-- Modelled from the spec: `rand::thread_rng().gen_range(0..5)` (the
`rand` crate is an external dependency).  The spec requires a
pseudo-random count in `[0, 5)`; the model maps an arbitrary seed into
that range. -/
def gen_range_0_5 (seed : Nat) : Nat := seed % 5

/-- The body of the producer's `for _ in 0..n` loop: increment the
`Local<u32>` counter (`u32` wrap-around), send a message carrying the
new counter value and the tick's timestamp, repeat `n` times.  Returns
the final counter and the queue with the new messages appended. -/
def send_events_loop (ts : Nat) : Nat → Nat → List ImportantMessage →
    Nat × List ImportantMessage
  | 0, msgNum, queue => (msgNum, queue)
  | n + 1, msgNum, queue =>
      send_events_loop ts n ((msgNum + 1) % W32)
        (queue ++ [⟨(msgNum + 1) % W32, ts⟩])

/-- The producer system `send_events`: draw `n = gen_range(0..5)` and
run the sending loop.  `seed` stands for the thread-rng state, `ts` for
`time.seconds_since_startup()`, `msgNum` for the persistent
`Local<u32>` counter, `queue` for `Events<ImportantMessage>`. -/
def send_events (seed ts msgNum : Nat) (queue : List ImportantMessage) :
    Nat × List ImportantMessage :=
  send_events_loop ts (gen_range_0_5 seed) msgNum queue

/-- The drainer's `for event in event_reader.iter(&events)` loop over
the unread suffix of the queue.  Per iteration the source first sleeps
the per-item delay, prints, and only then compares
`system_start.elapsed() >= time_budget.duration`, breaking if the
budget is reached.  Returns the messages processed (in iteration order)
and the elapsed time when the loop ends. -/
def drainLoop (budget itemCost : Nat) :
    List ImportantMessage → Nat → List ImportantMessage × Nat
  | [], elapsed => ([], elapsed)
  | m :: rest, elapsed =>
      if budget ≤ elapsed + itemCost then
        ([m], elapsed + itemCost)
      else
        let r := drainLoop budget itemCost rest (elapsed + itemCost)
        (m :: r.1, r.2)

/-- The drainer system `do_work`: record `system_start = Instant::now()`
(elapsed `0`), iterate over the messages after the reader's `cursor`,
and return the advanced cursor, the processed messages, and the elapsed
time of the pass.  In `main` the budget is `time_budget_nanos` and the
item cost is `sleep_nanos`; both are parameters here because the claims
quantify over them. -/
def do_work (queue : List ImportantMessage) (cursor budget itemCost : Nat) :
    Nat × List ImportantMessage × Nat :=
  let r := drainLoop budget itemCost (queue.drop cursor) 0
  (cursor + r.1.length, r.1, r.2)

/-- Count-only version of `drainLoop`: how many messages a pass
processes depends only on how many are unread. -/
def drainCount (budget itemCost : Nat) : Nat → Nat → Nat
  | 0, _ => 0
  | r + 1, elapsed =>
      if budget ≤ elapsed + itemCost then 1
      else 1 + drainCount budget itemCost r (elapsed + itemCost)

/-- State of a single producer/consumer run: the append-only queue, one
consumer's cursor, and the transcript of messages delivered to that
consumer so far. -/
structure SimState where
  queue : List ImportantMessage
  cursor : Nat
  delivered : List ImportantMessage
deriving DecidableEq, Repr

/-- One scheduler tick for one consumer: the producer appends a batch of
new messages, then the drainer runs one pass from the consumer's
cursor. -/
def tick (budget itemCost : Nat) (s : SimState)
    (newMsgs : List ImportantMessage) : SimState :=
  let q := s.queue ++ newMsgs
  let r := do_work q s.cursor budget itemCost
  { queue := q, cursor := r.1, delivered := s.delivered ++ r.2.1 }

/-- Run a sequence of ticks from the empty initial state; `ticks` lists
the batch the producer appends on each tick. -/
def runTicks (budget itemCost : Nat)
    (ticks : List (List ImportantMessage)) : SimState :=
  ticks.foldl (tick budget itemCost) ⟨[], 0, []⟩

/-! ### Lemmas about the drain loop -/

lemma drainLoop_nil (budget itemCost e : Nat) :
    drainLoop budget itemCost [] e = ([], e) := rfl

lemma drainLoop_length_eq_drainCount (budget itemCost : Nat) :
    ∀ (l : List ImportantMessage) (e : Nat),
      (drainLoop budget itemCost l e).1.length =
        drainCount budget itemCost l.length e := by
  intro l
  induction l with
  | nil => intro e; rfl
  | cons m rest ih =>
      intro e
      simp only [drainLoop, drainCount, List.length_cons]
      split
      · rfl
      · simp [ih]; omega

lemma drainLoop_take (budget itemCost : Nat) :
    ∀ (l : List ImportantMessage) (e : Nat),
      (drainLoop budget itemCost l e).1 =
        l.take (drainLoop budget itemCost l e).1.length := by
  intro l
  induction l with
  | nil => intro e; rfl
  | cons m rest ih =>
      intro e
      simp only [drainLoop]
      split
      · rfl
      · simp only [List.length_cons, List.take_succ_cons, List.cons.injEq,
          true_and]
        exact ih (e + itemCost)

lemma drainLoop_length_le (budget itemCost : Nat) :
    ∀ (l : List ImportantMessage) (e : Nat),
      (drainLoop budget itemCost l e).1.length ≤ l.length := by
  intro l
  induction l with
  | nil => intro e; simp [drainLoop]
  | cons m rest ih =>
      intro e
      simp only [drainLoop, List.length_cons]
      split
      · simp
      · simpa using ih (e + itemCost)

lemma drainLoop_elapsed (budget itemCost : Nat) :
    ∀ (l : List ImportantMessage) (e : Nat),
      (drainLoop budget itemCost l e).2 =
        e + (drainLoop budget itemCost l e).1.length * itemCost := by
  intro l
  induction l with
  | nil => intro e; simp [drainLoop]
  | cons m rest ih =>
      intro e
      simp only [drainLoop]
      split
      · simp
      · simp only [List.length_cons]
        rw [ih (e + itemCost)]
        ring

lemma drainLoop_elapsed_le (budget itemCost : Nat) :
    ∀ (l : List ImportantMessage) (e : Nat), e ≤ budget →
      (drainLoop budget itemCost l e).2 ≤ budget + itemCost := by
  intro l
  induction l with
  | nil => intro e he; simpa [drainLoop] using Nat.le_add_right_of_le he
  | cons m rest ih =>
      intro e he
      simp only [drainLoop]
      split
      · exact Nat.add_le_add he (Nat.le_refl itemCost)
      · rename_i hlt
        exact ih (e + itemCost) (Nat.le_of_lt (Nat.lt_of_not_le hlt))

lemma drainLoop_ne_nil (budget itemCost : Nat)
    (l : List ImportantMessage) (e : Nat) (h : l ≠ []) :
    (drainLoop budget itemCost l e).1 ≠ [] := by
  cases l with
  | nil => exact absurd rfl h
  | cons m rest =>
      simp only [drainLoop]
      split <;> simp

lemma drainLoop_head (budget itemCost : Nat)
    (m : ImportantMessage) (rest : List ImportantMessage) (e : Nat) :
    (drainLoop budget itemCost (m :: rest) e).1.head? = some m := by
  simp only [drainLoop]
  split <;> rfl

lemma drainLoop_stop (budget itemCost : Nat) :
    ∀ (l : List ImportantMessage) (e : Nat),
      (drainLoop budget itemCost l e).1.length < l.length →
        budget ≤ (drainLoop budget itemCost l e).2 := by
  intro l
  induction l with
  | nil => intro e h; simp [drainLoop] at h
  | cons m rest ih =>
      intro e h
      simp only [drainLoop] at h ⊢
      by_cases hb : budget ≤ e + itemCost
      · simp [hb]
      · simp only [hb, if_false, List.length_cons,
          Nat.add_lt_add_iff_right] at h ⊢
        exact ih (e + itemCost) h

lemma drainLoop_continue (budget itemCost : Nat) :
    ∀ (l : List ImportantMessage) (e : Nat) (j : Nat), 0 < j →
      j < (drainLoop budget itemCost l e).1.length →
        e + j * itemCost < budget := by
  intro l
  induction l with
  | nil => intro e j _ hj; simp [drainLoop] at hj
  | cons m rest ih =>
      intro e j hj0 hj
      simp only [drainLoop] at hj
      by_cases hb : budget ≤ e + itemCost
      · simp [hb] at hj; omega
      · simp only [hb, if_false, List.length_cons] at hj
        cases j with
        | zero => exact absurd hj0 (by omega)
        | succ k =>
            cases k with
            | zero =>
                simpa [Nat.one_mul] using Nat.lt_of_not_le hb
            | succ i =>
                have := ih (e + itemCost) (i + 1) (by omega) (by omega)
                have harith : e + itemCost + (i + 1) * itemCost =
                    e + (i + 1 + 1) * itemCost := by ring
                omega

/-! ### Lemmas about the producer -/

lemma send_events_loop_spec (ts : Nat) :
    ∀ (n msgNum : Nat) (queue : List ImportantMessage),
      msgNum + n < W32 →
        send_events_loop ts n msgNum queue =
          (msgNum + n,
           queue ++ (List.range' (msgNum + 1) n).map
             (fun k => ⟨k, ts⟩)) := by
  intro n
  induction n with
  | zero => intro msgNum queue _; simp [send_events_loop]
  | succ n ih =>
      intro msgNum queue h
      have hmod : (msgNum + 1) % W32 = msgNum + 1 :=
        Nat.mod_eq_of_lt (by omega)
      rw [send_events_loop, hmod, ih (msgNum + 1) _ (by omega),
        List.range'_succ]
      simp [Nat.add_assoc, Nat.add_comm 1 n]

/-! ### Lemmas about a multi-tick run -/

lemma tick_invariant (budget itemCost : Nat) (s : SimState)
    (newMsgs : List ImportantMessage)
    (hc : s.cursor ≤ s.queue.length)
    (hd : s.delivered = s.queue.take s.cursor) :
    (tick budget itemCost s newMsgs).cursor ≤
      (tick budget itemCost s newMsgs).queue.length ∧
    (tick budget itemCost s newMsgs).delivered =
      (tick budget itemCost s newMsgs).queue.take
        (tick budget itemCost s newMsgs).cursor := by
  have hcq : s.cursor ≤ (s.queue ++ newMsgs).length := by
    simp only [List.length_append]; omega
  have hlen : (drainLoop budget itemCost
      ((s.queue ++ newMsgs).drop s.cursor) 0).1.length ≤
      ((s.queue ++ newMsgs).drop s.cursor).length :=
    drainLoop_length_le budget itemCost _ 0
  have hdroplen : ((s.queue ++ newMsgs).drop s.cursor).length =
      (s.queue ++ newMsgs).length - s.cursor :=
    List.length_drop s.cursor (s.queue ++ newMsgs)
  constructor
  · simp only [tick, do_work]
    omega
  · simp only [tick, do_work]
    rw [hd, List.take_add]
    congr 1
    · exact (List.take_append_of_le_length hc).symm
    · exact drainLoop_take budget itemCost _ 0

lemma runTicks_invariant (budget itemCost : Nat) :
    ∀ (ticks : List (List ImportantMessage)) (s : SimState),
      s.cursor ≤ s.queue.length →
      s.delivered = s.queue.take s.cursor →
        (ticks.foldl (tick budget itemCost) s).cursor ≤
          (ticks.foldl (tick budget itemCost) s).queue.length ∧
        (ticks.foldl (tick budget itemCost) s).delivered =
          (ticks.foldl (tick budget itemCost) s).queue.take
            (ticks.foldl (tick budget itemCost) s).cursor := by
  intro ticks
  induction ticks with
  | nil => intro s hc hd; exact ⟨hc, hd⟩
  | cons t rest ih =>
      intro s hc hd
      have h := tick_invariant budget itemCost s t hc hd
      exact ih (tick budget itemCost s t) h.1 h.2

/-! ### Claim theorems -/

/-- C1: for every sequence of produced Messages (one arbitrary batch
appended per tick) and every consumer cursor (each consumer's cursor is
independent state, so one run models any one of them), the drainer
delivers each Message to that cursor at most once and visits Messages in
strict enqueue (FIFO) order, with no reordering and no Message skipped:
after any run, the transcript of delivered messages is exactly the first
`cursor` messages of the enqueue sequence. -/
theorem c1_fifo_at_most_once_no_skip (budget itemCost : Nat)
    (ticks : List (List ImportantMessage)) :
    (runTicks budget itemCost ticks).delivered =
      (runTicks budget itemCost ticks).queue.take
        (runTicks budget itemCost ticks).cursor ∧
    (runTicks budget itemCost ticks).cursor ≤
      (runTicks budget itemCost ticks).queue.length := by
  have h := runTicks_invariant budget itemCost ticks ⟨[], 0, []⟩
    (by simp) (by simp)
  exact ⟨h.2, h.1⟩

/-- C2: the claim says the TimeBudget registered in main holds
300000000 nanoseconds (0.3 s).  In Rust, `^` is bitwise XOR and binds
more loosely than `*`, so `Duration::new(0, 3 * 10 ^ 8)` holds
`(3 * 10) xor 8 = 22` nanoseconds, not 300000000. -/
theorem c2_budget_is_22ns_not_03s :
    time_budget_nanos = 22 ∧ time_budget_nanos ≠ 300000000 := by decide

/-- C3: the claim (and the source's own comment, which says "Sleeping
for 0.1 seconds") puts the per-item delay at 100000000 nanoseconds.  The
code's `sleep(Duration::new(0, 10 ^ 8))` sleeps `10 xor 8 = 2`
nanoseconds, not 100000000. -/
theorem c3_sleep_is_2ns_not_01s :
    sleep_nanos = 2 ∧ sleep_nanos ≠ 100000000 := by decide

/-- C4: a drain pass measures elapsed time from its own invocation
(elapsed starts at 0), processes unread messages in order, performs the
work of an item before the budget test (a nonempty backlog always yields
a nonempty processed batch, and every non-final processed item passed
the budget test, while an early stop happens only with the budget
reached), advances the cursor exactly by the number of consumed
messages, and leaves the remaining unread messages queued. -/
theorem c4_drain_pass_characterization
    (queue : List ImportantMessage) (cursor budget itemCost : Nat)
    (h : cursor ≤ queue.length) :
    (do_work queue cursor budget itemCost).2.1 =
      (queue.drop cursor).take
        (do_work queue cursor budget itemCost).2.1.length ∧
    (do_work queue cursor budget itemCost).1 =
      cursor + (do_work queue cursor budget itemCost).2.1.length ∧
    (do_work queue cursor budget itemCost).1 ≤ queue.length ∧
    (do_work queue cursor budget itemCost).2.2 =
      (do_work queue cursor budget itemCost).2.1.length * itemCost ∧
    (queue.drop cursor ≠ [] →
      (do_work queue cursor budget itemCost).2.1 ≠ []) ∧
    ((do_work queue cursor budget itemCost).2.1.length <
        queue.length - cursor →
      budget ≤ (do_work queue cursor budget itemCost).2.2) ∧
    (∀ j, 0 < j → j < (do_work queue cursor budget itemCost).2.1.length →
      j * itemCost < budget) := by
  have h1 := drainLoop_take budget itemCost (queue.drop cursor) 0
  have h2 := drainLoop_length_le budget itemCost (queue.drop cursor) 0
  have h3 := drainLoop_elapsed budget itemCost (queue.drop cursor) 0
  have h4 := drainLoop_stop budget itemCost (queue.drop cursor) 0
  have h5 := drainLoop_continue budget itemCost (queue.drop cursor) 0
  have hdl := List.length_drop cursor queue
  simp only [do_work]
  refine ⟨h1, by simp, by omega, by simpa using h3, ?_, ?_, ?_⟩
  · intro hne
    exact drainLoop_ne_nil budget itemCost _ 0 hne
  · intro hlt
    exact h4 (by omega)
  · intro j hj0 hjlt
    simpa using h5 j hj0 hjlt

/-- Witness for C4 at a concrete input: one queued message, cursor 0,
budget 5, item cost 3. -/
theorem c4_drain_pass_characterization_witness :
    (0 ≤ ([⟨1, 0⟩] : List ImportantMessage).length) ∧
    ((do_work [⟨1, 0⟩] 0 5 3).2.1 =
      (([⟨1, 0⟩] : List ImportantMessage).drop 0).take
        (do_work [⟨1, 0⟩] 0 5 3).2.1.length ∧
    (do_work [⟨1, 0⟩] 0 5 3).1 =
      0 + (do_work [⟨1, 0⟩] 0 5 3).2.1.length ∧
    (do_work [⟨1, 0⟩] 0 5 3).1 ≤
      ([⟨1, 0⟩] : List ImportantMessage).length ∧
    (do_work [⟨1, 0⟩] 0 5 3).2.2 =
      (do_work [⟨1, 0⟩] 0 5 3).2.1.length * 3 ∧
    (([⟨1, 0⟩] : List ImportantMessage).drop 0 ≠ [] →
      (do_work [⟨1, 0⟩] 0 5 3).2.1 ≠ []) ∧
    ((do_work [⟨1, 0⟩] 0 5 3).2.1.length <
        ([⟨1, 0⟩] : List ImportantMessage).length - 0 →
      5 ≤ (do_work [⟨1, 0⟩] 0 5 3).2.2) ∧
    (∀ j, 0 < j → j < (do_work [⟨1, 0⟩] 0 5 3).2.1.length →
      j * 3 < 5)) :=
  ⟨by decide, c4_drain_pass_characterization [⟨1, 0⟩] 0 5 3 (by decide)⟩

/-- C5: with budget 0.3 s (300000000 ns), per-item cost 0.1 s
(100000000 ns) and 5 messages queued ahead of the cursor, one drain pass
processes exactly 3 messages and leaves exactly 2 queued for the next
pass. -/
theorem c5_three_processed_two_deferred
    (queue : List ImportantMessage) (h : queue.length = 5) :
    (do_work queue 0 300000000 100000000).2.1.length = 3 ∧
    queue.length - (do_work queue 0 300000000 100000000).1 = 2 := by
  have hc : (drainLoop 300000000 100000000 queue 0).1.length = 3 := by
    rw [drainLoop_length_eq_drainCount, h]
    decide
  constructor
  · simpa [do_work] using hc
  · simp [do_work, hc, h]

/-- Witness for C5 at a concrete queue of five messages. -/
theorem c5_three_processed_two_deferred_witness :
    ([⟨1, 10⟩, ⟨2, 10⟩, ⟨3, 10⟩, ⟨4, 10⟩, ⟨5, 10⟩] :
        List ImportantMessage).length = 5 ∧
    ((do_work [⟨1, 10⟩, ⟨2, 10⟩, ⟨3, 10⟩, ⟨4, 10⟩, ⟨5, 10⟩]
        0 300000000 100000000).2.1.length = 3 ∧
    ([⟨1, 10⟩, ⟨2, 10⟩, ⟨3, 10⟩, ⟨4, 10⟩, ⟨5, 10⟩] :
        List ImportantMessage).length -
      (do_work [⟨1, 10⟩, ⟨2, 10⟩, ⟨3, 10⟩, ⟨4, 10⟩, ⟨5, 10⟩]
        0 300000000 100000000).1 = 2) :=
  ⟨by decide,
   c5_three_processed_two_deferred
     [⟨1, 10⟩, ⟨2, 10⟩, ⟨3, 10⟩, ⟨4, 10⟩, ⟨5, 10⟩] (by decide)⟩

/-- C6: for every budget, the elapsed time of one drain pass is at most
the budget plus the cost of one message: the overshoot past the budget
never exceeds one unit of per-item work. -/
theorem c6_overshoot_at_most_one_item (queue : List ImportantMessage)
    (cursor budget itemCost : Nat) :
    (do_work queue cursor budget itemCost).2.2 ≤ budget + itemCost := by
  simp only [do_work]
  exact drainLoop_elapsed_le budget itemCost _ 0 (Nat.zero_le budget)

/-- C7: for every budget at least one item's cost, a drain pass invoked
while at least one message is queued ahead of the cursor processes at
least one message. -/
theorem c7_processes_at_least_one (queue : List ImportantMessage)
    (cursor budget itemCost : Nat) (_hb : itemCost ≤ budget)
    (hq : cursor < queue.length) :
    1 ≤ (do_work queue cursor budget itemCost).2.1.length := by
  simp only [do_work]
  have hne : queue.drop cursor ≠ [] := by
    rw [ne_eq, List.drop_eq_nil_iff]
    omega
  exact List.length_pos.mpr (drainLoop_ne_nil budget itemCost _ 0 hne)

/-- Witness for C7: one queued message, budget 1, item cost 1. -/
theorem c7_processes_at_least_one_witness :
    (1 : Nat) ≤ 1 ∧ (0 : Nat) < ([⟨1, 0⟩] : List ImportantMessage).length ∧
    1 ≤ (do_work [⟨1, 0⟩] 0 1 1).2.1.length :=
  ⟨by decide, by decide,
   c7_processes_at_least_one [⟨1, 0⟩] 0 1 1 (by decide) (by decide)⟩

/-- C8: a drain pass whose cursor has no unread messages is a no-op: the
cursor stays put, no message is delivered, no time is spent, no error is
raised (the embedding is total), and re-invoking from the resulting
state is the same no-op. -/
theorem c8_empty_backlog_noop (queue : List ImportantMessage)
    (cursor budget itemCost : Nat) (h : queue.length ≤ cursor) :
    do_work queue cursor budget itemCost = (cursor, [], 0) ∧
    do_work queue (do_work queue cursor budget itemCost).1 budget
      itemCost = (cursor, [], 0) := by
  have hdrop : queue.drop cursor = [] := List.drop_eq_nil_of_le h
  have h1 : do_work queue cursor budget itemCost = (cursor, [], 0) := by
    simp [do_work, hdrop, drainLoop]
  exact ⟨h1, by rw [h1]; simpa using h1⟩

/-- Witness for C8: empty queue, cursor 0. -/
theorem c8_empty_backlog_noop_witness :
    ([] : List ImportantMessage).length ≤ 0 ∧
    (do_work [] 0 7 3 = (0, [], 0) ∧
     do_work [] (do_work [] 0 7 3).1 7 3 = (0, [], 0)) :=
  ⟨by decide, c8_empty_backlog_noop [] 0 7 3 (by decide)⟩

/-- C9: each producer tick draws a count below 5, appends exactly that
many messages to the queue in order, numbered consecutively from the
persistent counter's successor and all stamped with the tick's
timestamp, leaves the counter advanced by the count, and a zero count is
a no-op tick (the hypothesis rules out u32 counter wrap-around, which
cannot occur within the first 2^32 - 4 messages). -/
theorem c9_producer_batch (seed ts msgNum : Nat)
    (queue : List ImportantMessage)
    (h : msgNum + gen_range_0_5 seed < W32) :
    gen_range_0_5 seed < 5 ∧
    send_events seed ts msgNum queue =
      (msgNum + gen_range_0_5 seed,
       queue ++ (List.range' (msgNum + 1) (gen_range_0_5 seed)).map
         (fun k => ⟨k, ts⟩)) ∧
    (gen_range_0_5 seed = 0 →
      send_events seed ts msgNum queue = (msgNum, queue)) := by
  refine ⟨Nat.mod_lt seed (by omega), ?_, ?_⟩
  · exact send_events_loop_spec ts (gen_range_0_5 seed) msgNum queue h
  · intro h0
    show send_events_loop ts (gen_range_0_5 seed) msgNum queue =
      (msgNum, queue)
    rw [h0]
    rfl

/-- Witness for C9: seed 3 (count 3), timestamp 7, counter 0, empty
queue. -/
theorem c9_producer_batch_witness :
    0 + gen_range_0_5 3 < W32 ∧
    (gen_range_0_5 3 < 5 ∧
    send_events 3 7 0 [] =
      (0 + gen_range_0_5 3,
       [] ++ (List.range' (0 + 1) (gen_range_0_5 3)).map
         (fun k => ⟨k, 7⟩)) ∧
    (gen_range_0_5 3 = 0 → send_events 3 7 0 [] = (0, []))) :=
  ⟨by decide, c9_producer_batch 3 7 0 [] (by decide)⟩

/-- C10: for every budget, including zero or one smaller than the item
cost, a drain pass with at least one unread message still fully
processes the first unread message (the batch is nonempty and starts
with the message at the cursor), because the budget comparison happens
only after an item's processing completes. -/
theorem c10_first_item_always_processed (queue : List ImportantMessage)
    (cursor budget itemCost : Nat) (hq : cursor < queue.length) :
    1 ≤ (do_work queue cursor budget itemCost).2.1.length ∧
    (do_work queue cursor budget itemCost).2.1.head? = queue[cursor]? := by
  simp only [do_work]
  have hne : queue.drop cursor ≠ [] := by
    rw [ne_eq, List.drop_eq_nil_iff]
    omega
  constructor
  · exact List.length_pos.mpr (drainLoop_ne_nil budget itemCost _ 0 hne)
  · obtain ⟨m, rest, hmr⟩ := List.exists_cons_of_ne_nil hne
    rw [hmr, drainLoop_head, ← List.head?_drop, hmr]
    rfl

/-- Witness for C10: one queued message and a zero budget. -/
theorem c10_first_item_always_processed_witness :
    (0 : Nat) < ([⟨1, 0⟩] : List ImportantMessage).length ∧
    (1 ≤ (do_work [⟨1, 0⟩] 0 0 4).2.1.length ∧
     (do_work [⟨1, 0⟩] 0 0 4).2.1.head? =
       ([⟨1, 0⟩] : List ImportantMessage)[0]?) :=
  ⟨by decide, c10_first_item_always_processed [⟨1, 0⟩] 0 0 4 (by decide)⟩
